import Mathlib

/-!
Shallow embedding of the two valuation pipelines of the repository
(`src/models/dcf_model.py` and `src/models/comp_analysis.py`).

Python floats are modelled by `PFloat`: an exact rational for finite values,
plus the two infinities and NaN, which the pandas `pct_change`/`median`
path can produce.  Fallible Python arithmetic (ZeroDivisionError on a zero
denominator, TypeError on `None` operands) is modelled with `Except`.
All external data (the Yahoo Finance provider) is abstracted as explicit
inputs: a cash-flow history and optional balance-sheet/info fields, where
`none` models a field that is absent from the provider data.
-/

set_option linter.unusedVariables false

/-- Python exception kinds that the modelled code can raise. -/
inductive PyErr where
  | zeroDivisionError
  | typeError
  | indexError
deriving DecidableEq, Repr

/-- An IEEE-754 double as it occurs in the modelled pipelines: a finite value
(kept exact as a rational), one of the two infinities, or NaN. -/
inductive PFloat where
  | num (q : ℚ)
  | inf
  | ninf
  | nan
deriving DecidableEq, Repr

namespace PFloat

/-- Float addition (IEEE rules for the infinities and NaN). -/
def add : PFloat → PFloat → PFloat
  | num a, num b => num (a + b)
  | nan, _ => nan
  | _, nan => nan
  | inf, ninf => nan
  | ninf, inf => nan
  | inf, _ => inf
  | _, inf => inf
  | ninf, _ => ninf
  | _, ninf => ninf

/-- Float negation. -/
def neg : PFloat → PFloat
  | num a => num (-a)
  | inf => ninf
  | ninf => inf
  | nan => nan

/-- Float subtraction. -/
def sub (x y : PFloat) : PFloat := x.add y.neg

/-- Float multiplication (IEEE rules; `inf * 0` is NaN). -/
def mul : PFloat → PFloat → PFloat
  | num a, num b => num (a * b)
  | nan, _ => nan
  | _, nan => nan
  | inf, inf => inf
  | inf, ninf => ninf
  | ninf, inf => ninf
  | ninf, ninf => inf
  | inf, num q => if 0 < q then inf else if q < 0 then ninf else nan
  | num q, inf => if 0 < q then inf else if q < 0 then ninf else nan
  | ninf, num q => if 0 < q then ninf else if q < 0 then inf else nan
  | num q, ninf => if 0 < q then ninf else if q < 0 then inf else nan

/-- Python float division: dividing by (exactly) zero raises
`ZeroDivisionError`, whatever the numerator is; otherwise IEEE rules. -/
def div (x : PFloat) : PFloat → Except PyErr PFloat
  | num q =>
    if q = 0 then .error .zeroDivisionError
    else
      match x with
      | num a => .ok (num (a / q))
      | inf => .ok (if 0 < q then inf else ninf)
      | ninf => .ok (if 0 < q then ninf else inf)
      | nan => .ok nan
  | nan => .ok nan
  | inf =>
      match x with
      | num _ => .ok (num 0)
      | _ => .ok nan
  | ninf =>
      match x with
      | num _ => .ok (num 0)
      | _ => .ok nan

/-- The Python `<` comparison on floats: any comparison with NaN is false. -/
def lt : PFloat → PFloat → Bool
  | num a, num b => a < b
  | nan, _ => false
  | _, nan => false
  | ninf, ninf => false
  | inf, inf => false
  | ninf, _ => true
  | _, inf => true
  | _, _ => false

/-- A total `≤`-like ordering used for sorting (numpy sorts NaN last;
irrelevant here because the pipeline drops NaN before sorting). -/
def ble : PFloat → PFloat → Bool
  | num a, num b => a ≤ b
  | ninf, _ => true
  | _, ninf => false
  | _, nan => true
  | nan, _ => false
  | _, inf => true
  | inf, _ => false

end PFloat

/-- Python `min(a, b)`: returns `b` only when `b < a`, so a NaN first
argument is returned unchanged. -/
def pyMin (a b : PFloat) : PFloat := if PFloat.lt b a then b else a

/-- Python `max(a, b)`: returns `b` only when `a < b`, so a NaN first
argument is returned unchanged. -/
def pyMax (a b : PFloat) : PFloat := if PFloat.lt a b then b else a

/-- Python `sum` over a list of floats, starting from `0`. -/
def pfSum (l : List PFloat) : PFloat := l.foldl PFloat.add (.num 0)

/-- Insertion step of the sort used by the median. -/
def pfInsert (x : PFloat) : List PFloat → List PFloat
  | [] => [x]
  | y :: ys => if x.ble y then x :: y :: ys else y :: pfInsert x ys

/-- Ascending sort of a float list (as numpy sorts before taking a median). -/
def pfSort : List PFloat → List PFloat
  | [] => []
  | x :: xs => pfInsert x (pfSort xs)

/-- `pandas.Series.median`: NaN on an empty series; otherwise the middle of
the sorted values, averaging the two middles for an even count. -/
def pfMedian (l : List PFloat) : PFloat :=
  let s := pfSort l
  let n := s.length
  if n = 0 then .nan
  else if n % 2 = 1 then s.getD (n / 2) .nan
  else ((s.getD (n / 2 - 1) .nan).add (s.getD (n / 2) .nan)).mul (.num (1 / 2))

/-- `pandas.Series.dropna`: removes the NaN entries. -/
def dropna (l : List PFloat) : List PFloat := l.filter (fun x => decide (x ≠ .nan))

/-- One period-over-period percentage change `(curr - prev) / prev` under
numpy float semantics: a zero previous value yields ±infinity or (for 0/0)
NaN instead of raising. -/
def pctOne (prev curr : ℚ) : PFloat :=
  if prev = 0 then
    if 0 < curr then .inf else if curr < 0 then .ninf else .nan
  else .num ((curr - prev) / prev)

/-- `pandas.Series.pct_change` on a numeric series, with the leading NaN
already removed (the pipeline immediately drops it via `dropna`). -/
def pct_change : List ℚ → List PFloat
  | [] => []
  | [_] => []
  | a :: b :: rest => pctOne a b :: pct_change (b :: rest)

/-- `DCFModel.calculate_fcf_growth_rate`: the 5% default on fewer than two
points, otherwise `max(min(median(pct_change), 0.25), -0.10)` with Python
`min`/`max` semantics. -/
def calculate_fcf_growth_rate (fcf_historical : List ℚ) : PFloat :=
  if fcf_historical.length < 2 then .num (1 / 20)
  else
    pyMax (pyMin (pfMedian (dropna (pct_change fcf_historical))) (.num (1 / 4)))
      (.num (-(1 / 10)))

/-- The loop body of `DCFModel.project_fcf`: repeatedly multiply the running
cash flow by `1 + growth_rate`, collecting each updated value. -/
def projectGo (g : PFloat) : PFloat → ℕ → List PFloat
  | _, 0 => []
  | current, n + 1 =>
      let next := current.mul ((PFloat.num 1).add g)
      next :: projectGo g next n

/-- `DCFModel.project_fcf`. -/
def project_fcf (base_fcf growth_rate : PFloat) (forecast_years : ℕ) : List PFloat :=
  projectGo growth_rate base_fcf forecast_years

/-- The constructor assumptions of `DCFModel` (the ticker and the fetched
provider handle are abstracted away). -/
structure DCFModel where
  forecast_years : ℕ
  terminal_growth_rate : ℚ
  wacc : ℚ
deriving DecidableEq, Repr

/-- `DCFModel.calculate_terminal_value`:
`final_fcf * (1 + terminal_growth_rate) / (wacc - terminal_growth_rate)`,
with no guard on the denominator. -/
def calculate_terminal_value (m : DCFModel) (final_fcf : PFloat) : Except PyErr PFloat :=
  (final_fcf.mul (.num (1 + m.terminal_growth_rate))).div
    (.num (m.wacc - m.terminal_growth_rate))

/-- The loop of `DCFModel.discount_cash_flows`, carrying the period index. -/
def discountGo (m : DCFModel) : ℕ → List PFloat → Except PyErr (List PFloat)
  | _, [] => .ok []
  | t, cf :: rest =>
      match cf.div (.num ((1 + m.wacc) ^ t)) with
      | .error e => .error e
      | .ok pv =>
          match discountGo m (t + 1) rest with
          | .error e => .error e
          | .ok pvs => .ok (pv :: pvs)

/-- `DCFModel.discount_cash_flows`: each cash flow divided by
`(1 + wacc) ^ t`, `t` starting at 1. -/
def discount_cash_flows (m : DCFModel) (cash_flows : List PFloat) :
    Except PyErr (List PFloat) :=
  discountGo m 1 cash_flows

/-- The provider data consumed by `DCFModel.calculate_enterprise_value`:
the (chronologically sorted) FCF history, and the balance-sheet/info fields,
each `none` when absent from the provider data. -/
structure ProviderData where
  fcf_history : List ℚ
  cash : Option ℚ
  debt : Option ℚ
  sharesOutstanding : Option ℚ
  currentPrice : Option ℚ
deriving DecidableEq, Repr

/-- The result dictionary of `DCFModel.calculate_enterprise_value`
(the ticker entry is omitted). -/
structure DCFResult where
  base_fcf : ℚ
  fcf_growth_rate : PFloat
  projected_fcf : List PFloat
  terminal_value : PFloat
  pv_terminal_value : PFloat
  enterprise_value : PFloat
  cash : ℚ
  debt : ℚ
  equity_value : PFloat
  shares_outstanding : ℚ
  intrinsic_value_per_share : PFloat
  current_price : ℚ
  upside_downside_pct : PFloat
  wacc : ℚ
  terminal_growth_rate : ℚ
deriving DecidableEq, Repr

/-- `DCFModel.calculate_enterprise_value`: the full pipeline.  `iloc[-1]` on
an empty history or on an empty projection raises `IndexError`; missing
cash/debt are defaulted to `0` by the `try/except` blocks, and missing
shares outstanding / current price by `info.get(..., 0)`; the per-share and
upside divisions are guarded by `> 0` checks, the terminal-value and
discounting divisions are not. -/
def calculate_enterprise_value (m : DCFModel) (d : ProviderData) :
    Except PyErr DCFResult :=
  match d.fcf_history.getLast? with
  | none => .error .indexError
  | some base_fcf =>
    let growth_rate := calculate_fcf_growth_rate d.fcf_history
    let projected_fcf := project_fcf (.num base_fcf) growth_rate m.forecast_years
    match projected_fcf.getLast? with
    | none => .error .indexError
    | some final_fcf =>
      match calculate_terminal_value m final_fcf with
      | .error e => .error e
      | .ok terminal_value =>
        match discount_cash_flows m projected_fcf with
        | .error e => .error e
        | .ok pv_fcf =>
          match terminal_value.div (.num ((1 + m.wacc) ^ m.forecast_years)) with
          | .error e => .error e
          | .ok pv_terminal_value =>
            let enterprise_value := (pfSum pv_fcf).add pv_terminal_value
            let cash := d.cash.getD 0
            let debt := d.debt.getD 0
            let equity_value := (enterprise_value.add (.num cash)).sub (.num debt)
            let shares_outstanding := d.sharesOutstanding.getD 0
            match (if 0 < shares_outstanding then
                     equity_value.div (.num shares_outstanding)
                   else .ok (.num 0) : Except PyErr PFloat) with
            | .error e => .error e
            | .ok intrinsic_value_per_share =>
              let current_price := d.currentPrice.getD 0
              match (if 0 < current_price then
                       match (intrinsic_value_per_share.sub (.num current_price)).div
                           (.num current_price) with
                       | .error e => .error e
                       | .ok t => .ok (t.mul (.num 100))
                     else .ok (.num 0) : Except PyErr PFloat) with
              | .error e => .error e
              | .ok upside =>
                .ok { base_fcf := base_fcf
                      fcf_growth_rate := growth_rate
                      projected_fcf := projected_fcf
                      terminal_value := terminal_value
                      pv_terminal_value := pv_terminal_value
                      enterprise_value := enterprise_value
                      cash := cash
                      debt := debt
                      equity_value := equity_value
                      shares_outstanding := shares_outstanding
                      intrinsic_value_per_share := intrinsic_value_per_share
                      current_price := current_price
                      upside_downside_pct := upside
                      wacc := m.wacc
                      terminal_growth_rate := m.terminal_growth_rate }

/-- One row of the summary-statistics table built by
`CompAnalysis.calculate_multiples`.  In the empty-column branch every
aggregate is `None`; otherwise each is a number.  The source stores
`values.std()` (pandas sample standard deviation, `ddof = 1`); since its
exact value is irrational in general we record its square `stdSq` — the
sample variance — which determines everything the code observes about it:
the std is NaN exactly when the variance is NaN (length 1), and a number
exactly when the variance is one. -/
structure MultipleStat where
  mean : Option ℚ
  median : Option ℚ
  min : Option ℚ
  max : Option ℚ
  stdSq : Option PFloat
  count : ℕ
deriving DecidableEq, Repr

/-- `pandas.Series.min` on a non-empty numeric series. -/
def listMin : List ℚ → Option ℚ
  | [] => none
  | x :: xs => some (xs.foldl Min.min x)

/-- `pandas.Series.max` on a non-empty numeric series. -/
def listMax : List ℚ → Option ℚ
  | [] => none
  | x :: xs => some (xs.foldl Max.max x)

/-- `pandas.Series.median` on a numeric series: sort ascending, take the
middle element, averaging the two middles for an even count. -/
def medianQ (l : List ℚ) : ℚ :=
  let s := l.insertionSort (· ≤ ·)
  let n := s.length
  if n % 2 = 1 then s.getD (n / 2) 0
  else (s.getD (n / 2 - 1) 0 + s.getD (n / 2) 0) / 2

/-- The square of `pandas.Series.std` (sample standard deviation,
`ddof = 1`): NaN for fewer than two values, otherwise the sample variance
`Σ (x - mean)² / (n - 1)`. -/
def sampleStdSq (l : List ℚ) : PFloat :=
  if l.length < 2 then .nan
  else .num (((l.map (fun x => (x - l.sum / l.length) ^ 2)).sum) / ((l.length : ℚ) - 1))

/-- The per-column body of `CompAnalysis.calculate_multiples`: drop the
missing values; with none left, emit the count-0 all-`None` row, otherwise
mean / median / min / max / std / count of the remaining values. -/
def statOfColumn (col : List (Option ℚ)) : MultipleStat :=
  let values := col.reduceOption
  if values.length = 0 then
    { mean := none, median := none, min := none, max := none, stdSq := none, count := 0 }
  else
    { mean := some (values.sum / values.length)
      median := some (medianQ values)
      min := listMin values
      max := listMax values
      stdSq := some (sampleStdSq values)
      count := values.length }

/-- The peer table `comp_data`, one column per analysed multiple; `none`
marks a peer whose provider data lacks that multiple. -/
structure CompData where
  pe_ratio : List (Option ℚ)
  forward_pe : List (Option ℚ)
  peg_ratio : List (Option ℚ)
  price_to_book : List (Option ℚ)
  price_to_sales : List (Option ℚ)
  ev_to_revenue : List (Option ℚ)
  ev_to_ebitda : List (Option ℚ)
deriving DecidableEq, Repr

/-- `CompAnalysis.calculate_multiples`: one stat row per requested multiple,
in the fixed order of `multiple_cols`. -/
def calculate_multiples (cd : CompData) : List (String × MultipleStat) :=
  [("pe_ratio", statOfColumn cd.pe_ratio),
   ("forward_pe", statOfColumn cd.forward_pe),
   ("peg_ratio", statOfColumn cd.peg_ratio),
   ("price_to_book", statOfColumn cd.price_to_book),
   ("price_to_sales", statOfColumn cd.price_to_sales),
   ("ev_to_revenue", statOfColumn cd.ev_to_revenue),
   ("ev_to_ebitda", statOfColumn cd.ev_to_ebitda)]

/-- The `method` argument of `CompAnalysis.value_target`. -/
inductive StatKind where
  | mean
  | median
  | min
  | max
deriving DecidableEq, Repr

/-- `row[method]`: the chosen aggregate of a stat row (`None` for a count-0
row, where every aggregate is `None`). -/
def selectStat : StatKind → MultipleStat → Option ℚ
  | .mean, s => s.mean
  | .median, s => s.median
  | .min, s => s.min
  | .max, s => s.max

/-- The target-company fields `value_target` reads from `target_data`;
`none` models a field absent from the provider data. -/
structure TargetData where
  price : Option ℚ
  pe_ratio : Option ℚ
  price_to_book : Option ℚ
  ev_to_ebitda : Option ℚ
  enterprise_value : Option ℚ
deriving DecidableEq, Repr

/-- Python truthiness of an optional float: `None` and `0` are falsy. -/
def truthy : Option ℚ → Bool
  | none => false
  | some q => decide (q ≠ 0)

/-- A `{'implied_price': ..., 'comp_multiple': ..., 'current_price': ...}`
entry of the valuations dictionary. -/
structure PriceEntry where
  implied_price : ℚ
  comp_multiple : ℚ
  current_price : Option ℚ
deriving DecidableEq, Repr

/-- An `{'implied_ev': ..., 'comp_multiple': ..., 'current_ev': ...}` entry
of the valuations dictionary. -/
structure EVEntry where
  implied_ev : ℚ
  comp_multiple : ℚ
  current_ev : Option ℚ
deriving DecidableEq, Repr

/-- The dictionary returned by `CompAnalysis.value_target`: at most one
entry per mapping rule (absent key modelled as `none`). -/
structure Valuations where
  method : StatKind
  PE : Option PriceEntry
  PB : Option PriceEntry
  EV_EBITDA : Option EVEntry
deriving DecidableEq, Repr

/-- The P/E branch of `value_target`:
`eps = price / pe_ratio if pe_ratio else None`, then the entry is produced
only `if eps:`.  A `None` price with a truthy P/E raises `TypeError`
(`None / float`). -/
def pe_rule (t : TargetData) (comp_multiple : ℚ) : Except PyErr (Option PriceEntry) :=
  match t.pe_ratio with
  | none => .ok none
  | some pe =>
    if pe = 0 then .ok none
    else
      match t.price with
      | none => .error .typeError
      | some p =>
        let eps := p / pe
        if eps = 0 then .ok none
        else .ok (some { implied_price := comp_multiple * eps
                         comp_multiple := comp_multiple
                         current_price := t.price })

/-- The P/B branch of `value_target`, same shape as the P/E branch with the
book-value-per-share back-out. -/
def pb_rule (t : TargetData) (comp_multiple : ℚ) : Except PyErr (Option PriceEntry) :=
  match t.price_to_book with
  | none => .ok none
  | some ptb =>
    if ptb = 0 then .ok none
    else
      match t.price with
      | none => .error .typeError
      | some p =>
        let bvps := p / ptb
        if bvps = 0 then .ok none
        else .ok (some { implied_price := comp_multiple * bvps
                         comp_multiple := comp_multiple
                         current_price := t.price })

/-- The EV/EBITDA branch of `value_target`: gated only on the truthiness of
the target EV/EBITDA ratio; the backed-out EBITDA is *not* re-checked, so a
zero enterprise value still produces an entry, while a `None` enterprise
value raises `TypeError`. -/
def ev_rule (t : TargetData) (comp_multiple : ℚ) : Except PyErr (Option EVEntry) :=
  match t.ev_to_ebitda with
  | none => .ok none
  | some ratio =>
    if ratio = 0 then .ok none
    else
      match t.enterprise_value with
      | none => .error .typeError
      | some ev =>
        let target_ebitda := ev / ratio
        .ok (some { implied_ev := comp_multiple * target_ebitda
                    comp_multiple := comp_multiple
                    current_ev := t.enterprise_value })

/-- `CompAnalysis.value_target`: walk the stat rows in order; a row whose
selected aggregate is `None` is skipped (`comp_multiple is None or isna`),
rows without a mapping rule contribute nothing, and the three rules run in
the order P/E, P/B, EV/EBITDA. -/
def value_target (t : TargetData) (cd : CompData) (method : StatKind) :
    Except PyErr Valuations :=
  match (match selectStat method (statOfColumn cd.pe_ratio) with
         | none => .ok none
         | some cm => pe_rule t cm : Except PyErr (Option PriceEntry)) with
  | .error e => .error e
  | .ok pe =>
    match (match selectStat method (statOfColumn cd.price_to_book) with
           | none => .ok none
           | some cm => pb_rule t cm : Except PyErr (Option PriceEntry)) with
    | .error e => .error e
    | .ok pb =>
      match (match selectStat method (statOfColumn cd.ev_to_ebitda) with
             | none => .ok none
             | some cm => ev_rule t cm : Except PyErr (Option EVEntry)) with
      | .error e => .error e
      | .ok ev =>
        .ok { method := method, PE := pe, PB := pb, EV_EBITDA := ev }

/-! ## Helper lemmas -/

lemma PFloat.div_num_ok (x : PFloat) {q : ℚ} (h : q ≠ 0) :
    ∃ y, x.div (.num q) = .ok y := by
  cases x <;> simp [PFloat.div, h]

lemma projectGo_length (g : PFloat) : ∀ (n : ℕ) (c : PFloat),
    (projectGo g c n).length = n := by
  intro n
  induction n with
  | zero => intro c; rfl
  | succ k ih => intro c; simp [projectGo, ih]

lemma projectGo_get?_num (g b : ℚ) : ∀ (n i : ℕ), i < n →
    (projectGo (.num g) (.num b) n).get? i = some (.num (b * (1 + g) ^ (i + 1))) := by
  intro n
  induction n generalizing b with
  | zero => omega
  | succ k ih =>
    intro i hi
    have hstep : projectGo (PFloat.num g) (PFloat.num b) (k + 1) =
        PFloat.num (b * (1 + g)) :: projectGo (PFloat.num g) (PFloat.num (b * (1 + g))) k := by
      simp [projectGo, PFloat.add, PFloat.mul]
    rcases i with _ | j
    · simp [hstep]
    · have hj : j < k := by omega
      rw [hstep]
      simp only [List.get?_cons_succ]
      rw [ih (b * (1 + g)) j hj]
      congr 2
      ring

lemma pyMin_num (a b : ℚ) : pyMin (.num a) (.num b) = .num (min a b) := by
  simp only [pyMin, PFloat.lt, decide_eq_true_eq, min_def]
  split_ifs <;> first | rfl | exact congrArg PFloat.num (by linarith)

lemma pyMax_num (a b : ℚ) : pyMax (.num a) (.num b) = .num (max a b) := by
  simp only [pyMax, PFloat.lt, decide_eq_true_eq, max_def]
  split_ifs <;> first | rfl | exact congrArg PFloat.num (by linarith)

lemma discountGo_ok (m : DCFModel) (hw : m.wacc ≠ -1) :
    ∀ (cfs : List PFloat) (t : ℕ), ∃ pvs, discountGo m t cfs = .ok pvs := by
  have hpow : ∀ t : ℕ, ((1 + m.wacc) ^ t : ℚ) ≠ 0 := by
    intro t
    refine pow_ne_zero _ ?_
    intro h
    exact hw (by linarith [eq_neg_of_add_eq_zero_right h])
  intro cfs
  induction cfs with
  | nil => intro t; exact ⟨[], rfl⟩
  | cons cf rest ih =>
    intro t
    obtain ⟨pv, hpv⟩ := PFloat.div_num_ok cf (hpow t)
    obtain ⟨pvs, hpvs⟩ := ih (t + 1)
    exact ⟨pv :: pvs, by simp [discountGo, hpv, hpvs]⟩

/-! ## Claim theorems -/

/-- Full characterisation of a successful `calculate_enterprise_value` run:
with a non-empty history, at least one forecast year, wacc distinct from the
terminal growth rate and wacc ≠ −1, the pipeline returns a result whose
fields satisfy all the §4.4 equations. -/
theorem cev_spec (m : DCFModel) (d : ProviderData)
    (h1 : d.fcf_history ≠ []) (h2 : 1 ≤ m.forecast_years)
    (h3 : m.wacc ≠ m.terminal_growth_rate) (h4 : m.wacc ≠ -1) :
    ∃ (r : DCFResult) (pvs : List PFloat),
      calculate_enterprise_value m d = .ok r ∧
      d.fcf_history.getLast? = some r.base_fcf ∧
      r.fcf_growth_rate = calculate_fcf_growth_rate d.fcf_history ∧
      r.projected_fcf = project_fcf (.num r.base_fcf) r.fcf_growth_rate m.forecast_years ∧
      (∃ fin, r.projected_fcf.getLast? = some fin ∧
        calculate_terminal_value m fin = .ok r.terminal_value) ∧
      discount_cash_flows m r.projected_fcf = .ok pvs ∧
      r.terminal_value.div (.num ((1 + m.wacc) ^ m.forecast_years)) =
        .ok r.pv_terminal_value ∧
      r.enterprise_value = (pfSum pvs).add r.pv_terminal_value ∧
      r.cash = d.cash.getD 0 ∧
      r.debt = d.debt.getD 0 ∧
      r.equity_value = (r.enterprise_value.add (.num r.cash)).sub (.num r.debt) ∧
      r.shares_outstanding = d.sharesOutstanding.getD 0 ∧
      (0 < r.shares_outstanding →
        r.equity_value.div (.num r.shares_outstanding) = .ok r.intrinsic_value_per_share) ∧
      (¬ 0 < r.shares_outstanding → r.intrinsic_value_per_share = .num 0) ∧
      r.current_price = d.currentPrice.getD 0 ∧
      (0 < r.current_price → ∃ t,
        (r.intrinsic_value_per_share.sub (.num r.current_price)).div
          (.num r.current_price) = .ok t ∧
        r.upside_downside_pct = t.mul (.num 100)) ∧
      (¬ 0 < r.current_price → r.upside_downside_pct = .num 0) ∧
      r.wacc = m.wacc ∧ r.terminal_growth_rate = m.terminal_growth_rate := by
  have hbne : d.fcf_history.getLast? ≠ none :=
    fun h => h1 (List.getLast?_eq_none_iff.mp h)
  obtain ⟨b, hb⟩ := Option.ne_none_iff_exists'.mp hbne
  have hPlen :
      (project_fcf (.num b) (calculate_fcf_growth_rate d.fcf_history)
        m.forecast_years).length = m.forecast_years :=
    projectGo_length _ m.forecast_years _
  have hPne :
      (project_fcf (.num b) (calculate_fcf_growth_rate d.fcf_history)
        m.forecast_years).getLast? ≠ none := by
    intro h
    have hnil := List.getLast?_eq_none_iff.mp h
    rw [hnil] at hPlen
    simp at hPlen
    omega
  obtain ⟨fin, hfin⟩ := Option.ne_none_iff_exists'.mp hPne
  have hden : m.wacc - m.terminal_growth_rate ≠ 0 := sub_ne_zero.mpr h3
  obtain ⟨tv, htv⟩ :=
    PFloat.div_num_ok (fin.mul (.num (1 + m.terminal_growth_rate))) hden
  have htv2 : calculate_terminal_value m fin = .ok tv := htv
  obtain ⟨pvs, hpvs⟩ :=
    discountGo_ok m h4
      (project_fcf (.num b) (calculate_fcf_growth_rate d.fcf_history) m.forecast_years) 1
  have hp1w : (1 + m.wacc : ℚ) ≠ 0 := fun h => h4 (by linarith)
  obtain ⟨pvtv, hpvtv⟩ := PFloat.div_num_ok tv (pow_ne_zero m.forecast_years hp1w)
  obtain ⟨intr, hintr, hintr_pos, hintr_neg⟩ :
      ∃ i,
        (if 0 < d.sharesOutstanding.getD 0 then
           ((((pfSum pvs).add pvtv).add (.num (d.cash.getD 0))).sub
             (.num (d.debt.getD 0))).div (.num (d.sharesOutstanding.getD 0))
         else .ok (.num 0) : Except PyErr PFloat) = .ok i ∧
        (0 < d.sharesOutstanding.getD 0 →
          ((((pfSum pvs).add pvtv).add (.num (d.cash.getD 0))).sub
            (.num (d.debt.getD 0))).div (.num (d.sharesOutstanding.getD 0)) = .ok i) ∧
        (¬ 0 < d.sharesOutstanding.getD 0 → i = .num 0) := by
    by_cases hs : 0 < d.sharesOutstanding.getD 0
    · obtain ⟨i, hi⟩ :=
        PFloat.div_num_ok
          ((((pfSum pvs).add pvtv).add (.num (d.cash.getD 0))).sub
            (.num (d.debt.getD 0))) (ne_of_gt hs)
      exact ⟨i, by rw [if_pos hs]; exact hi, fun _ => hi, fun hc => absurd hs hc⟩
    · exact ⟨.num 0, by rw [if_neg hs], fun hc => absurd hc hs, fun _ => rfl⟩
  obtain ⟨up, hup, hup_pos, hup_neg⟩ :
      ∃ u,
        (if 0 < d.currentPrice.getD 0 then
           match (intr.sub (.num (d.currentPrice.getD 0))).div
               (.num (d.currentPrice.getD 0)) with
           | .error e => .error e
           | .ok t => .ok (t.mul (.num 100))
         else .ok (.num 0) : Except PyErr PFloat) = .ok u ∧
        (0 < d.currentPrice.getD 0 → ∃ t,
          (intr.sub (.num (d.currentPrice.getD 0))).div
            (.num (d.currentPrice.getD 0)) = .ok t ∧ u = t.mul (.num 100)) ∧
        (¬ 0 < d.currentPrice.getD 0 → u = .num 0) := by
    by_cases hc : 0 < d.currentPrice.getD 0
    · obtain ⟨t, ht⟩ :=
        PFloat.div_num_ok (intr.sub (.num (d.currentPrice.getD 0))) (ne_of_gt hc)
      refine ⟨t.mul (.num 100), ?_, fun _ => ⟨t, ht, rfl⟩, fun hcon => absurd hc hcon⟩
      rw [if_pos hc, ht]
    · exact ⟨.num 0, by rw [if_neg hc], fun hcon => absurd hcon hc, fun _ => rfl⟩
  refine
    ⟨{ base_fcf := b
       fcf_growth_rate := calculate_fcf_growth_rate d.fcf_history
       projected_fcf :=
         project_fcf (.num b) (calculate_fcf_growth_rate d.fcf_history) m.forecast_years
       terminal_value := tv
       pv_terminal_value := pvtv
       enterprise_value := (pfSum pvs).add pvtv
       cash := d.cash.getD 0
       debt := d.debt.getD 0
       equity_value :=
         (((pfSum pvs).add pvtv).add (.num (d.cash.getD 0))).sub (.num (d.debt.getD 0))
       shares_outstanding := d.sharesOutstanding.getD 0
       intrinsic_value_per_share := intr
       current_price := d.currentPrice.getD 0
       upside_downside_pct := up
       wacc := m.wacc
       terminal_growth_rate := m.terminal_growth_rate }, pvs, ?_, hb, rfl, rfl,
      ⟨fin, hfin, htv2⟩, hpvs, hpvtv, rfl, rfl, rfl, rfl, rfl, hintr_pos, hintr_neg,
      rfl, hup_pos, hup_neg, rfl, rfl⟩
  simp only [calculate_enterprise_value, hb, hfin, htv2, hpvs, hpvtv, hintr, hup,
    discount_cash_flows]

/-- Claim C1, counterexample: with wacc = 0.02 ≤ terminalGrowth = 0.025 and a
positive final FCF of 100, `calculate_terminal_value` does not fail with any
error — it silently returns the negative terminal value −20500. -/
theorem terminal_value_r_le_g_cex :
    (1 / 50 : ℚ) ≤ 1 / 40 ∧
    calculate_terminal_value ⟨5, 1 / 40, 1 / 50⟩ (.num 100) = .ok (.num (-20500)) := by
  constructor
  · norm_num
  · norm_num [calculate_terminal_value, PFloat.mul, PFloat.div]

/-- Claim C1, amended: `calculate_terminal_value` has no r ≤ g guard.  With
r = g the division raises a language-level ZeroDivisionError (not a
DomainError), and with r < g (for a terminal growth rate above −100% and a
positive final FCF) it returns normally with a negative terminal value. -/
theorem terminal_value_unguarded (m : DCFModel) (fcf : ℚ) :
    (m.wacc = m.terminal_growth_rate →
       calculate_terminal_value m (.num fcf) = .error .zeroDivisionError) ∧
    (m.wacc < m.terminal_growth_rate → -1 < m.terminal_growth_rate → 0 < fcf →
       ∃ v : ℚ, calculate_terminal_value m (.num fcf) = .ok (.num v) ∧ v < 0) := by
  constructor
  · intro heq
    have hz : m.wacc - m.terminal_growth_rate = 0 := by rw [heq]; ring
    simp [calculate_terminal_value, PFloat.mul, PFloat.div, hz]
  · intro hlt hg hfcf
    have hz : m.wacc - m.terminal_growth_rate ≠ 0 := sub_ne_zero.mpr (ne_of_lt hlt)
    refine ⟨fcf * (1 + m.terminal_growth_rate) / (m.wacc - m.terminal_growth_rate),
      ?_, ?_⟩
    · simp [calculate_terminal_value, PFloat.mul, PFloat.div, hz]
    · apply div_neg_of_pos_of_neg
      · exact mul_pos hfcf (by linarith)
      · linarith

/-- Witness for `terminal_value_unguarded` at wacc = terminalGrowth = 0.025:
the division raises ZeroDivisionError. -/
theorem terminal_value_unguarded_witness :
    calculate_terminal_value ⟨5, 1 / 40, 1 / 40⟩ (.num 100) =
      .error .zeroDivisionError :=
  (terminal_value_unguarded ⟨5, 1 / 40, 1 / 40⟩ 100).1 rfl

lemma pe_rule_no_zero_div (t : TargetData) (cm : ℚ) :
    pe_rule t cm ≠ .error .zeroDivisionError := by
  cases ht : t.pe_ratio with
  | none => simp [pe_rule, ht]
  | some pe =>
    by_cases h0 : pe = 0
    · simp [pe_rule, ht, h0]
    · cases hp : t.price with
      | none => simp [pe_rule, ht, hp, h0]
      | some p => by_cases he : p / pe = 0 <;> simp [pe_rule, ht, hp, h0, he]

lemma pb_rule_no_zero_div (t : TargetData) (cm : ℚ) :
    pb_rule t cm ≠ .error .zeroDivisionError := by
  cases ht : t.price_to_book with
  | none => simp [pb_rule, ht]
  | some ptb =>
    by_cases h0 : ptb = 0
    · simp [pb_rule, ht, h0]
    · cases hp : t.price with
      | none => simp [pb_rule, ht, hp, h0]
      | some p => by_cases he : p / ptb = 0 <;> simp [pb_rule, ht, hp, h0, he]

lemma ev_rule_no_zero_div (t : TargetData) (cm : ℚ) :
    ev_rule t cm ≠ .error .zeroDivisionError := by
  cases ht : t.ev_to_ebitda with
  | none => simp [ev_rule, ht]
  | some ratio =>
    by_cases h0 : ratio = 0
    · simp [ev_rule, ht, h0]
    · cases hp : t.enterprise_value with
      | none => simp [ev_rule, ht, hp, h0]
      | some ev => simp [ev_rule, ht, hp, h0]

lemma step_no_zero_div {α : Type} (sel : Option ℚ) (rule : ℚ → Except PyErr (Option α))
    (hrule : ∀ cm, rule cm ≠ .error .zeroDivisionError) :
    (match sel with
     | none => .ok none
     | some cm => rule cm : Except PyErr (Option α)) ≠ .error .zeroDivisionError := by
  cases sel with
  | none => simp
  | some cm => exact hrule cm

lemma value_target_no_zero_div (t : TargetData) (cd : CompData) (mk : StatKind) :
    value_target t cd mk ≠ .error .zeroDivisionError := by
  unfold value_target
  cases hE1 : (match selectStat mk (statOfColumn cd.pe_ratio) with
               | none => .ok none
               | some cm => pe_rule t cm : Except PyErr (Option PriceEntry)) with
  | error e =>
    intro hcon
    injection hcon with he
    subst he
    exact step_no_zero_div _ _ (pe_rule_no_zero_div t) hE1
  | ok pe =>
    cases hE2 : (match selectStat mk (statOfColumn cd.price_to_book) with
                 | none => .ok none
                 | some cm => pb_rule t cm : Except PyErr (Option PriceEntry)) with
    | error e =>
      intro hcon
      injection hcon with he
      subst he
      exact step_no_zero_div _ _ (pb_rule_no_zero_div t) hE2
    | ok pb =>
      cases hE3 : (match selectStat mk (statOfColumn cd.ev_to_ebitda) with
                   | none => .ok none
                   | some cm => ev_rule t cm : Except PyErr (Option EVEntry)) with
      | error e =>
        intro hcon
        injection hcon with he
        subst he
        exact step_no_zero_div _ _ (ev_rule_no_zero_div t) hE3
      | ok ev => simp

/-- Claim C2, counterexample: the terminal-value division is not guarded —
with wacc = terminalGrowth = 0.025 the whole valuation run raises a
language-level ZeroDivisionError. -/
theorem division_guards_cex :
    calculate_enterprise_value ⟨1, 1 / 40, 1 / 40⟩ ⟨[100], none, none, none, none⟩ =
      .error .zeroDivisionError := by
  norm_num [calculate_enterprise_value, calculate_fcf_growth_rate, pct_change, pctOne,
    dropna, pfMedian, pfSort, pfInsert, pyMin, pyMax, project_fcf, projectGo,
    calculate_terminal_value, discount_cash_flows, discountGo, pfSum,
    PFloat.add, PFloat.sub, PFloat.neg, PFloat.mul, PFloat.div, PFloat.lt, PFloat.ble]

/-- Claim C2, amended: not every division is guarded.  The terminal-value
denominator (wacc − terminalGrowth) and the discount denominators
((1 + wacc)^t) are unguarded, so wacc = terminalGrowth (or wacc = −1) raises
a language-level division-by-zero; away from those the DCF run completes
with a result, and the comp `value_target` never raises a division-by-zero
(its divisions are truthiness-guarded; the remaining per-share and upside
divisions are guarded by the `> 0` checks). -/
theorem division_guards_amended :
    (∀ (m : DCFModel) (d : ProviderData), d.fcf_history ≠ [] → 1 ≤ m.forecast_years →
       m.wacc ≠ m.terminal_growth_rate → m.wacc ≠ -1 →
       ∃ r, calculate_enterprise_value m d = .ok r) ∧
    (∀ (t : TargetData) (cd : CompData) (mk : StatKind),
       value_target t cd mk ≠ .error .zeroDivisionError) := by
  constructor
  · intro m d h1 h2 h3 h4
    obtain ⟨r, pvs, hr, -⟩ := cev_spec m d h1 h2 h3 h4
    exact ⟨r, hr⟩
  · exact value_target_no_zero_div

/-- Witness for `division_guards_amended`: a concrete in-domain DCF run
returns a result, and a concrete `value_target` run is not a
ZeroDivisionError. -/
theorem division_guards_amended_witness :
    (calculate_enterprise_value ⟨5, 1 / 40, 1 / 10⟩
       ⟨[100], none, none, none, none⟩).isOk = true ∧
    value_target ⟨none, none, none, none, none⟩ ⟨[], [], [], [], [], [], []⟩ .median ≠
      .error .zeroDivisionError := by
  constructor
  · obtain ⟨r, hr⟩ :=
      division_guards_amended.1 ⟨5, 1 / 40, 1 / 10⟩ ⟨[100], none, none, none, none⟩
        (by simp) (by norm_num) (by norm_num) (by norm_num)
    rw [hr]
    rfl
  · exact division_guards_amended.2 _ _ _

/-- Claim C3, counterexample: with the cash field absent from the provider
data, the valuation run does not propagate an unknown — it silently treats
cash as 0 (the result's cash field is the number 0 and the equity value is
computed with it). -/
theorem missing_cash_coerced_cex :
    calculate_enterprise_value ⟨1, 1 / 40, 1 / 10⟩
        ⟨[100], none, some 20, some 100, some 10⟩ =
      .ok { base_fcf := 100
            fcf_growth_rate := .num (1 / 20)
            projected_fcf := [.num 105]
            terminal_value := .num 1435
            pv_terminal_value := .num (14350 / 11)
            enterprise_value := .num 1400
            cash := 0
            debt := 20
            equity_value := .num 1380
            shares_outstanding := 100
            intrinsic_value_per_share := .num (69 / 5)
            current_price := 10
            upside_downside_pct := .num 38
            wacc := 1 / 10
            terminal_growth_rate := 1 / 40 } := by
  norm_num [calculate_enterprise_value, calculate_fcf_growth_rate, pct_change, pctOne,
    dropna, pfMedian, pfSort, pfInsert, pyMin, pyMax, project_fcf, projectGo,
    calculate_terminal_value, discount_cash_flows, discountGo, pfSum,
    PFloat.add, PFloat.sub, PFloat.neg, PFloat.mul, PFloat.div, PFloat.lt, PFloat.ble]

/-- Claim C3, amended: in the comp pipeline absent metrics do propagate as
unknown (`None` is dropped per-field), but in the DCF pipeline absent cash,
debt, shares outstanding and current price are silently defaulted to 0 —
the shares/price defaults then flow through the documented zero-guards,
giving per-share 0 and upside 0. -/
theorem missing_fields_defaulted (m : DCFModel) (d : ProviderData)
    (h1 : d.fcf_history ≠ []) (h2 : 1 ≤ m.forecast_years)
    (h3 : m.wacc ≠ m.terminal_growth_rate) (h4 : m.wacc ≠ -1) :
    ∃ r, calculate_enterprise_value m d = .ok r ∧
      (d.cash = none → r.cash = 0) ∧
      (d.debt = none → r.debt = 0) ∧
      (d.sharesOutstanding = none →
         r.shares_outstanding = 0 ∧ r.intrinsic_value_per_share = .num 0) ∧
      (d.currentPrice = none →
         r.current_price = 0 ∧ r.upside_downside_pct = .num 0) := by
  obtain ⟨r, pvs, hr, -, -, -, -, -, -, -, hcash, hdebt, -, hsh, -, hintr_neg, hcp,
    -, hup_neg, -, -⟩ := cev_spec m d h1 h2 h3 h4
  refine ⟨r, hr, ?_, ?_, ?_, ?_⟩
  · intro h; rw [hcash, h]; rfl
  · intro h; rw [hdebt, h]; rfl
  · intro h
    have hz : r.shares_outstanding = 0 := by rw [hsh, h]; rfl
    exact ⟨hz, hintr_neg (by rw [hz]; norm_num)⟩
  · intro h
    have hz : r.current_price = 0 := by rw [hcp, h]; rfl
    exact ⟨hz, hup_neg (by rw [hz]; norm_num)⟩

/-- Witness for `missing_fields_defaulted` with every optional field absent. -/
theorem missing_fields_defaulted_witness :
    (calculate_enterprise_value ⟨5, 1 / 40, 1 / 10⟩
       ⟨[100], none, none, none, none⟩).isOk = true := by
  obtain ⟨r, hr, -⟩ :=
    missing_fields_defaulted ⟨5, 1 / 40, 1 / 10⟩ ⟨[100], none, none, none, none⟩
      (by simp) (by norm_num) (by norm_num) (by norm_num)
  rw [hr]
  rfl

/-- Claim C5: on every in-domain run the pipeline equations hold — enterprise
value is the sum of the discounted projections plus the terminal value
discounted at the final period's exponent, equity = EV + cash − debt,
per-share = equity / shares when shares > 0 and 0 otherwise, upside is the
percentage (intrinsic − price) / price × 100 when price > 0 and 0 otherwise —
and the §8 scenario (base FCF 100, g = 0.10, horizon 2, wacc = 0.10,
terminal growth 0.025, cash 50, debt 20, shares 100, price 10) yields
projected [110, 121], terminal value 4961/3 ≈ 1653.67 with present value
4100/3 ≈ 1366.67, enterprise value 4700/3 ≈ 1566.67, equity 4790/3 ≈ 1596.67,
per-share 479/30 ≈ 15.9667 and upside 179/3 ≈ 59.67%. -/
theorem dcf_pipeline_spec :
    (∀ (m : DCFModel) (d : ProviderData), d.fcf_history ≠ [] → 1 ≤ m.forecast_years →
       m.wacc ≠ m.terminal_growth_rate → m.wacc ≠ -1 →
       ∃ (r : DCFResult) (pvs : List PFloat),
         calculate_enterprise_value m d = .ok r ∧
         discount_cash_flows m r.projected_fcf = .ok pvs ∧
         r.terminal_value.div (.num ((1 + m.wacc) ^ m.forecast_years)) =
           .ok r.pv_terminal_value ∧
         r.enterprise_value = (pfSum pvs).add r.pv_terminal_value ∧
         r.cash = d.cash.getD 0 ∧
         r.debt = d.debt.getD 0 ∧
         r.equity_value = (r.enterprise_value.add (.num r.cash)).sub (.num r.debt) ∧
         r.shares_outstanding = d.sharesOutstanding.getD 0 ∧
         (0 < r.shares_outstanding →
           r.equity_value.div (.num r.shares_outstanding) =
             .ok r.intrinsic_value_per_share) ∧
         (¬ 0 < r.shares_outstanding → r.intrinsic_value_per_share = .num 0) ∧
         r.current_price = d.currentPrice.getD 0 ∧
         (0 < r.current_price → ∃ t,
           (r.intrinsic_value_per_share.sub (.num r.current_price)).div
             (.num r.current_price) = .ok t ∧
           r.upside_downside_pct = t.mul (.num 100)) ∧
         (¬ 0 < r.current_price → r.upside_downside_pct = .num 0)) ∧
    calculate_enterprise_value ⟨2, 1 / 40, 1 / 10⟩
        ⟨[1000 / 11, 100], some 50, some 20, some 100, some 10⟩ =
      .ok { base_fcf := 100
            fcf_growth_rate := .num (1 / 10)
            projected_fcf := [.num 110, .num 121]
            terminal_value := .num (4961 / 3)
            pv_terminal_value := .num (4100 / 3)
            enterprise_value := .num (4700 / 3)
            cash := 50
            debt := 20
            equity_value := .num (4790 / 3)
            shares_outstanding := 100
            intrinsic_value_per_share := .num (479 / 30)
            current_price := 10
            upside_downside_pct := .num (179 / 3)
            wacc := 1 / 10
            terminal_growth_rate := 1 / 40 } := by
  constructor
  · intro m d h1 h2 h3 h4
    obtain ⟨r, pvs, hr, -, -, -, -, hpvs, hpvtv, hEV, hcash, hdebt, heq, hsh,
      hintr_pos, hintr_neg, hcp, hup_pos, hup_neg, -, -⟩ := cev_spec m d h1 h2 h3 h4
    exact ⟨r, pvs, hr, hpvs, hpvtv, hEV, hcash, hdebt, heq, hsh, hintr_pos,
      hintr_neg, hcp, hup_pos, hup_neg⟩
  · norm_num [calculate_enterprise_value, calculate_fcf_growth_rate, pct_change,
      pctOne, dropna, pfMedian, pfSort, pfInsert, pyMin, pyMax, project_fcf, projectGo,
      calculate_terminal_value, discount_cash_flows, discountGo, pfSum,
      PFloat.add, PFloat.sub, PFloat.neg, PFloat.mul, PFloat.div, PFloat.lt, PFloat.ble]

/-- Witness for `dcf_pipeline_spec` on the §8 scenario inputs. -/
theorem dcf_pipeline_spec_witness :
    (calculate_enterprise_value ⟨2, 1 / 40, 1 / 10⟩
       ⟨[1000 / 11, 100], some 50, some 20, some 100, some 10⟩).isOk = true := by
  obtain ⟨r, pvs, hr, -⟩ :=
    dcf_pipeline_spec.1 ⟨2, 1 / 40, 1 / 10⟩
      ⟨[1000 / 11, 100], some 50, some 20, some 100, some 10⟩
      (by simp) (by norm_num) (by norm_num) (by norm_num)
  rw [hr]
  rfl

/-- Claim C4, counterexample: with the peer median P/E defined (25) and the
target P/E present (20) but the target price missing, `value_target` does
not skip the multiple — the back-out `None / 20` raises a language-level
TypeError instead of returning normally. -/
theorem value_target_missing_price_cex :
    value_target ⟨none, some 20, none, none, none⟩
      ⟨[some 25], [], [], [], [], [], []⟩ .median = .error .typeError := by
  norm_num [value_target, pe_rule, pb_rule, ev_rule, selectStat, statOfColumn,
    medianQ, listMin, listMax, sampleStdSq, List.insertionSort, List.orderedInsert,
    List.reduceOption, List.filterMap_cons, List.foldl, min_def, max_def]

/-- Claim C4, amended: `value_target` produces no entry — and returns
normally — for a multiple whose peer statistic is unknown or whose target
ratio field (P/E, P/B, EV/EBITDA respectively) is missing or zero (or whose
backed-out EPS/BVPS is zero); but when a ratio is present and non-zero while
its companion field (price, enterprise value) is missing, it raises a
TypeError rather than skipping, and a present-but-zero enterprise value
still produces an EV/EBITDA entry (with implied EV 0). -/
theorem value_target_skip_spec (t : TargetData) (cd : CompData) (mk : StatKind)
    (hpe : ∀ cm, selectStat mk (statOfColumn cd.pe_ratio) = some cm →
       truthy t.pe_ratio = true → t.price ≠ none)
    (hpb : ∀ cm, selectStat mk (statOfColumn cd.price_to_book) = some cm →
       truthy t.price_to_book = true → t.price ≠ none)
    (hev : ∀ cm, selectStat mk (statOfColumn cd.ev_to_ebitda) = some cm →
       truthy t.ev_to_ebitda = true → t.enterprise_value ≠ none) :
    ∃ v, value_target t cd mk = .ok v ∧
      (selectStat mk (statOfColumn cd.pe_ratio) = none → v.PE = none) ∧
      (truthy t.pe_ratio = false → v.PE = none) ∧
      (selectStat mk (statOfColumn cd.price_to_book) = none → v.PB = none) ∧
      (truthy t.price_to_book = false → v.PB = none) ∧
      (selectStat mk (statOfColumn cd.ev_to_ebitda) = none → v.EV_EBITDA = none) ∧
      (truthy t.ev_to_ebitda = false → v.EV_EBITDA = none) ∧
      (∀ cm q ev, selectStat mk (statOfColumn cd.ev_to_ebitda) = some cm →
        t.ev_to_ebitda = some q → q ≠ 0 → t.enterprise_value = some ev →
        v.EV_EBITDA = some { implied_ev := cm * (ev / q), comp_multiple := cm,
                             current_ev := some ev }) := by
  obtain ⟨ope, hpeEq, hpe1, hpe2⟩ :
      ∃ o, (match selectStat mk (statOfColumn cd.pe_ratio) with
            | none => .ok none
            | some cm => pe_rule t cm : Except PyErr (Option PriceEntry)) = .ok o ∧
        (selectStat mk (statOfColumn cd.pe_ratio) = none → o = none) ∧
        (truthy t.pe_ratio = false → o = none) := by
    cases hsel : selectStat mk (statOfColumn cd.pe_ratio) with
    | none => exact ⟨none, rfl, fun _ => rfl, fun _ => rfl⟩
    | some cm =>
      cases ht : t.pe_ratio with
      | none =>
        exact ⟨none, by simp [pe_rule, ht], fun h => Option.noConfusion h, fun _ => rfl⟩
      | some pe =>
        by_cases h0 : pe = 0
        · exact ⟨none, by simp [pe_rule, ht, h0], fun h => Option.noConfusion h,
            fun _ => rfl⟩
        · have htr : truthy t.pe_ratio = true := by simp [truthy, ht, h0]
          cases hpr : t.price with
          | none => exact absurd hpr (hpe cm hsel htr)
          | some p =>
            by_cases he : p / pe = 0
            · exact ⟨none, by simp [pe_rule, ht, h0, hpr, he],
                fun h => Option.noConfusion h, fun _ => rfl⟩
            · refine ⟨some { implied_price := cm * (p / pe), comp_multiple := cm,
                             current_price := some p },
                by simp [pe_rule, ht, h0, hpr, he], fun h => Option.noConfusion h, ?_⟩
              intro hf
              simp [truthy, h0] at hf
  obtain ⟨opb, hpbEq, hpb1, hpb2⟩ :
      ∃ o, (match selectStat mk (statOfColumn cd.price_to_book) with
            | none => .ok none
            | some cm => pb_rule t cm : Except PyErr (Option PriceEntry)) = .ok o ∧
        (selectStat mk (statOfColumn cd.price_to_book) = none → o = none) ∧
        (truthy t.price_to_book = false → o = none) := by
    cases hsel : selectStat mk (statOfColumn cd.price_to_book) with
    | none => exact ⟨none, rfl, fun _ => rfl, fun _ => rfl⟩
    | some cm =>
      cases ht : t.price_to_book with
      | none =>
        exact ⟨none, by simp [pb_rule, ht], fun h => Option.noConfusion h, fun _ => rfl⟩
      | some ptb =>
        by_cases h0 : ptb = 0
        · exact ⟨none, by simp [pb_rule, ht, h0], fun h => Option.noConfusion h,
            fun _ => rfl⟩
        · have htr : truthy t.price_to_book = true := by simp [truthy, ht, h0]
          cases hpr : t.price with
          | none => exact absurd hpr (hpb cm hsel htr)
          | some p =>
            by_cases he : p / ptb = 0
            · exact ⟨none, by simp [pb_rule, ht, h0, hpr, he],
                fun h => Option.noConfusion h, fun _ => rfl⟩
            · refine ⟨some { implied_price := cm * (p / ptb), comp_multiple := cm,
                             current_price := some p },
                by simp [pb_rule, ht, h0, hpr, he], fun h => Option.noConfusion h, ?_⟩
              intro hf
              simp [truthy, h0] at hf
  obtain ⟨oev, hevEq, hev1, hev2, hev3⟩ :
      ∃ o, (match selectStat mk (statOfColumn cd.ev_to_ebitda) with
            | none => .ok none
            | some cm => ev_rule t cm : Except PyErr (Option EVEntry)) = .ok o ∧
        (selectStat mk (statOfColumn cd.ev_to_ebitda) = none → o = none) ∧
        (truthy t.ev_to_ebitda = false → o = none) ∧
        (∀ cm q ev, selectStat mk (statOfColumn cd.ev_to_ebitda) = some cm →
          t.ev_to_ebitda = some q → q ≠ 0 → t.enterprise_value = some ev →
          o = some { implied_ev := cm * (ev / q), comp_multiple := cm,
                     current_ev := some ev }) := by
    cases hsel : selectStat mk (statOfColumn cd.ev_to_ebitda) with
    | none =>
      exact ⟨none, rfl, fun _ => rfl, fun _ => rfl,
        fun cm q ev h => Option.noConfusion h⟩
    | some cm =>
      cases ht : t.ev_to_ebitda with
      | none =>
        exact ⟨none, by simp [ev_rule, ht], fun h => Option.noConfusion h, fun _ => rfl,
          fun cm2 q ev hsel2 hq => Option.noConfusion hq⟩
      | some ratio =>
        by_cases h0 : ratio = 0
        · refine ⟨none, by simp [ev_rule, ht, h0], fun h => Option.noConfusion h,
            fun _ => rfl, ?_⟩
          intro cm2 q ev hsel2 hq hq0 hev2
          injection hq with e
          exact absurd (e ▸ h0) hq0
        · have htr : truthy t.ev_to_ebitda = true := by simp [truthy, ht, h0]
          cases henter : t.enterprise_value with
          | none => exact absurd henter (hev cm hsel htr)
          | some ev =>
            refine ⟨some { implied_ev := cm * (ev / ratio), comp_multiple := cm,
                           current_ev := some ev },
              by simp [ev_rule, ht, h0, henter], fun h => Option.noConfusion h, ?_, ?_⟩
            · intro hf
              simp [truthy, h0] at hf
            · intro cm2 q ev2 hsel2 hq hq0 hev2
              injection hsel2 with e1
              injection hq with e2
              injection hev2 with e3
              subst e1
              subst e2
              subst e3
              rfl
  refine ⟨{ method := mk, PE := ope, PB := opb, EV_EBITDA := oev }, ?_,
    hpe1, hpe2, hpb1, hpb2, hev1, hev2, hev3⟩
  simp only [value_target, hpeEq, hpbEq, hevEq]

/-- Witness for `value_target_skip_spec`: target with price 50 and P/E 20
against a single peer with P/E 25; all companion fields needed by present
ratios are present, so the run returns normally. -/
theorem value_target_skip_spec_witness :
    (value_target ⟨some 50, some 20, none, none, none⟩
       ⟨[some 25], [], [], [], [], [], []⟩ .median).isOk = true := by
  obtain ⟨v, hv, -⟩ :=
    value_target_skip_spec ⟨some 50, some 20, none, none, none⟩
      ⟨[some 25], [], [], [], [], [], []⟩ .median
      (fun cm hsel htr => by simp)
      (fun cm hsel htr => by simp [selectStat, statOfColumn] at hsel)
      (fun cm hsel htr => by simp [truthy] at htr)
  rw [hv]
  rfl

/-- Claim C6: `calculate_fcf_growth_rate` returns exactly the 5% default on
fewer than two points; on two or more points whose pandas median of
period-over-period changes is a (finite) number m, it returns m clamped to
[−0.10, 0.25]; and a monotonically doubling 5-point series yields the clamp
ceiling 0.25, not 1.0. -/
theorem growth_rate_spec (fcf : List ℚ) (m : ℚ) :
    (fcf.length < 2 → calculate_fcf_growth_rate fcf = .num (1 / 20)) ∧
    (2 ≤ fcf.length → pfMedian (dropna (pct_change fcf)) = .num m →
       calculate_fcf_growth_rate fcf = .num (max (min m (1 / 4)) (-(1 / 10)))) ∧
    calculate_fcf_growth_rate [100, 200, 400, 800, 1600] = .num (1 / 4) := by
  refine ⟨fun h => by simp [calculate_fcf_growth_rate, h], fun h2 hmed => ?_, ?_⟩
  · have hnot : ¬ fcf.length < 2 := by omega
    simp only [calculate_fcf_growth_rate, if_neg hnot, hmed, pyMin_num, pyMax_num]
  · norm_num [calculate_fcf_growth_rate, pct_change, pctOne, dropna, pfMedian, pfSort,
      pfInsert, pyMin, pyMax, PFloat.add, PFloat.mul, PFloat.lt, PFloat.ble]

/-- Witness for `growth_rate_spec`: the doubling series [100, 200, 400, 800,
1600] has pct-change median 1 and clamped growth rate 0.25, and the
single-point series [100] yields the 5% default. -/
theorem growth_rate_spec_witness :
    calculate_fcf_growth_rate [100] = .num (1 / 20) ∧
    calculate_fcf_growth_rate [100, 200, 400, 800, 1600] = .num (1 / 4) :=
  ⟨(growth_rate_spec [100] 0).1 (by norm_num),
   (growth_rate_spec [] 0).2.2⟩

/-- Claim C7: `project_fcf` returns a sequence of length exactly `horizon`
whose first element is `baseFCF * (1 + g)` and in which each successive
element is the previous one multiplied by `1 + g`; in particular
`project(100, 0.10, 3) = [110.0, 121.0, 133.1]`. -/
theorem project_fcf_spec (b g : ℚ) (n : ℕ) (hn : 1 ≤ n) :
    (project_fcf (.num b) (.num g) n).length = n ∧
    (project_fcf (.num b) (.num g) n).get? 0 = some (.num (b * (1 + g))) ∧
    (∀ i x y, (project_fcf (.num b) (.num g) n).get? i = some x →
       (project_fcf (.num b) (.num g) n).get? (i + 1) = some y →
       y = x.mul ((PFloat.num 1).add (.num g))) ∧
    project_fcf (.num 100) (.num (1 / 10)) 3 = [.num 110, .num 121, .num (1331 / 10)] := by
  refine ⟨projectGo_length _ n _, ?_, ?_, ?_⟩
  · have h0 := projectGo_get?_num g b n 0 hn
    simpa using h0
  · intro i x y hx hy
    simp only [project_fcf] at hx hy
    have hi1 : i + 1 < n := by
      by_contra hcon
      rw [List.get?_eq_none.mpr (by rw [projectGo_length]; omega)] at hy
      exact Option.noConfusion hy
    have hxv := projectGo_get?_num g b n i (by omega)
    have hyv := projectGo_get?_num g b n (i + 1) hi1
    rw [hx] at hxv
    rw [hy] at hyv
    obtain rfl := Option.some.inj hxv
    obtain rfl := Option.some.inj hyv
    simp only [PFloat.add, PFloat.mul, PFloat.num.injEq]
    ring
  · norm_num [project_fcf, projectGo, PFloat.add, PFloat.mul]

/-- Witness for `project_fcf_spec` at base 100, growth 10%, horizon 3. -/
theorem project_fcf_spec_witness :
    (project_fcf (.num 100) (.num (1 / 10)) 3).length = 3 ∧
    (project_fcf (.num 100) (.num (1 / 10)) 3).get? 0 = some (.num 110) := by
  obtain ⟨hlen, hhead, _, _⟩ := project_fcf_spec 100 (1 / 10) 3 (by norm_num)
  exact ⟨hlen, by rw [hhead]; norm_num⟩

lemma foldl_min_spec (xs : List ℚ) : ∀ x : ℚ,
    xs.foldl Min.min x ∈ x :: xs ∧ ∀ y ∈ x :: xs, xs.foldl Min.min x ≤ y := by
  induction xs with
  | nil =>
    intro x
    refine ⟨by simp, ?_⟩
    intro y hy
    simp only [List.mem_cons, List.not_mem_nil, or_false] at hy
    simp [hy]
  | cons a as ih =>
    intro x
    obtain ⟨hmem, hle⟩ := ih (Min.min x a)
    have hfold : (a :: as).foldl Min.min x = as.foldl Min.min (Min.min x a) := rfl
    constructor
    · rw [hfold]
      rcases List.mem_cons.mp hmem with h | h
      · rcases min_choice x a with hc | hc
        · rw [h, hc]; exact List.mem_cons_self _ _
        · rw [h, hc]; exact List.mem_cons_of_mem _ (List.mem_cons_self _ _)
      · exact List.mem_cons_of_mem _ (List.mem_cons_of_mem _ h)
    · intro y hy
      rw [hfold]
      have hself : as.foldl Min.min (Min.min x a) ≤ Min.min x a :=
        hle _ (List.mem_cons_self _ _)
      rcases List.mem_cons.mp hy with h | h
      · subst h; exact le_trans hself (min_le_left _ _)
      · rcases List.mem_cons.mp h with h2 | h2
        · subst h2; exact le_trans hself (min_le_right _ _)
        · exact hle _ (List.mem_cons_of_mem _ h2)

lemma foldl_max_spec (xs : List ℚ) : ∀ x : ℚ,
    xs.foldl Max.max x ∈ x :: xs ∧ ∀ y ∈ x :: xs, y ≤ xs.foldl Max.max x := by
  induction xs with
  | nil =>
    intro x
    refine ⟨by simp, ?_⟩
    intro y hy
    simp only [List.mem_cons, List.not_mem_nil, or_false] at hy
    simp [hy]
  | cons a as ih =>
    intro x
    obtain ⟨hmem, hle⟩ := ih (Max.max x a)
    have hfold : (a :: as).foldl Max.max x = as.foldl Max.max (Max.max x a) := rfl
    constructor
    · rw [hfold]
      rcases List.mem_cons.mp hmem with h | h
      · rcases max_choice x a with hc | hc
        · rw [h, hc]; exact List.mem_cons_self _ _
        · rw [h, hc]; exact List.mem_cons_of_mem _ (List.mem_cons_self _ _)
      · exact List.mem_cons_of_mem _ (List.mem_cons_of_mem _ h)
    · intro y hy
      rw [hfold]
      have hself : Max.max x a ≤ as.foldl Max.max (Max.max x a) :=
        hle _ (List.mem_cons_self _ _)
      rcases List.mem_cons.mp hy with h | h
      · subst h; exact le_trans (le_max_left _ _) hself
      · rcases List.mem_cons.mp h with h2 | h2
        · subst h2; exact le_trans (le_max_right _ _) hself
        · exact hle _ (List.mem_cons_of_mem _ h2)

/-- Claim C8: the per-multiple statistics of `calculate_multiples` are
computed over the non-missing values only; an all-missing column yields the
count-0 row with every aggregate unknown (and no error); a non-empty value
list yields its mean, its pandas median — the middle of a sorted permutation
of the values, averaging the two middles for an even count — the sample
(ddof = 1) standard deviation, the true minimum and maximum, and the count
of contributing peers. -/
theorem computeStats_spec (col : List (Option ℚ)) :
    (col.reduceOption = [] →
       statOfColumn col =
         { mean := none, median := none, min := none, max := none,
           stdSq := none, count := 0 }) ∧
    (∀ v vs, col.reduceOption = v :: vs →
       (List.insertionSort (· ≤ ·) (v :: vs)).Sorted (· ≤ ·) ∧
       List.Perm (List.insertionSort (· ≤ ·) (v :: vs)) (v :: vs) ∧
       statOfColumn col =
         { mean := some ((v :: vs).sum / ((v :: vs).length : ℚ))
           median := some (medianQ (v :: vs))
           min := listMin (v :: vs)
           max := listMax (v :: vs)
           stdSq := some (sampleStdSq (v :: vs))
           count := (v :: vs).length } ∧
       (∀ mn, listMin (v :: vs) = some mn → mn ∈ v :: vs ∧ ∀ x ∈ v :: vs, mn ≤ x) ∧
       (∀ mx, listMax (v :: vs) = some mx → mx ∈ v :: vs ∧ ∀ x ∈ v :: vs, x ≤ mx) ∧
       medianQ (v :: vs) =
         (if (v :: vs).length % 2 = 1 then
            (List.insertionSort (· ≤ ·) (v :: vs)).getD ((v :: vs).length / 2) 0
          else
            ((List.insertionSort (· ≤ ·) (v :: vs)).getD ((v :: vs).length / 2 - 1) 0 +
             (List.insertionSort (· ≤ ·) (v :: vs)).getD ((v :: vs).length / 2) 0) / 2)) := by
  refine ⟨fun h => by simp [statOfColumn, h], fun v vs hvs => ?_⟩
  refine ⟨List.sorted_insertionSort _ _, List.perm_insertionSort _ _, ?_, ?_, ?_, ?_⟩
  · simp [statOfColumn, hvs]
  · intro mn hmn
    simp only [listMin, Option.some.injEq] at hmn
    rw [← hmn]
    exact foldl_min_spec vs v
  · intro mx hmx
    simp only [listMax, Option.some.injEq] at hmx
    rw [← hmx]
    exact foldl_max_spec vs v
  · simp only [medianQ, List.length_insertionSort]

/-- Witness for `computeStats_spec` on the column [3, missing, 1, 2]. -/
theorem computeStats_spec_witness :
    statOfColumn [some 3, none, some 1, some 2] =
      { mean := some 2, median := some 2, min := some 1, max := some 3,
        stdSq := some (.num 1), count := 3 } := by
  obtain ⟨-, -, hrec, -, -, -⟩ :=
    (computeStats_spec [some 3, none, some 1, some 2]).2 3 [1, 2]
      (by norm_num [List.reduceOption, List.filterMap_cons])
  rw [hrec]
  norm_num [medianQ, listMin, listMax, sampleStdSq, List.insertionSort,
    List.orderedInsert, List.foldl, min_def, max_def]

/-- Claim C10: a multiple provided by exactly one peer yields count 1 with
mean, median, min and max all equal to that value, while the stored standard
deviation is NaN (sample std with ddof = 1 on one point), not a number and
not the count-0 unknown marker. -/
theorem single_peer_stat (col : List (Option ℚ)) (v : ℚ)
    (h : col.reduceOption = [v]) :
    statOfColumn col =
      { mean := some v, median := some v, min := some v, max := some v,
        stdSq := some .nan, count := 1 } := by
  norm_num [statOfColumn, h, medianQ, listMin, listMax, sampleStdSq,
    List.insertionSort, List.orderedInsert, List.foldl]

/-- Witness for `single_peer_stat` on the column [missing, 5]. -/
theorem single_peer_stat_witness :
    statOfColumn [none, some 5] =
      { mean := some 5, median := some 5, min := some 5, max := some 5,
        stdSq := some .nan, count := 1 } :=
  single_peer_stat [none, some 5] 5 (by norm_num [List.reduceOption, List.filterMap_cons])

/-- Claim C9 (code bug): on the all-zero two-point history [0, 0] the single
period-over-period change is 0/0 = NaN, `dropna` leaves an empty series whose
median is NaN, and Python `min`/`max` pass NaN through — so the returned
growth rate is NaN, outside the documented clamp range [−0.10, 0.25]. -/
theorem growth_rate_nan_escapes_clamp : calculate_fcf_growth_rate [0, 0] = .nan := by
  norm_num [calculate_fcf_growth_rate, pct_change, pctOne, dropna, pfMedian, pfSort,
    pfInsert, pyMin, pyMax, PFloat.add, PFloat.mul, PFloat.lt, PFloat.ble]
